import Mathlib

/-!
Verification development for the open_modular_chess core: a shallow
embedding of the Board/Piece/Player state model (src/omc/core/model/board.py),
the base-set movement archetypes
(src/resources/sets/base_set/helper/chess_piece.py and
src/resources/sets/base_set/pieces/{pawn,knight,rook,queen,king}.py),
the chess player threat computation
(src/resources/sets/base_set/chess_player.py) and the set loader
(src/omc/core/load_set.py).

Conventions of the embedding:
* Coordinates are pairs of integers `(x, y)`.
* A `Board`'s numpy layout is modelled as an association list from storage
  indices to piece ids.  `Board.coord_to_index` reverses a coordinate, so the
  cell of coordinate `(x, y)` is stored at index `(y, x)`; numpy indexing
  semantics (negative indices wrap, indices outside `[-d, d)` raise
  `IndexError`) are modelled by `npAxis`.
* Python object identity is modelled by a piece id (`Nat`); the mutable
  attributes of a piece live in `PieceState`.
* Operations that can raise an uncaught Python exception return `none`
  (`Option`); boolean-returning operations return the new state paired with
  the boolean.
* `while` loops over a ray are modelled by structural recursion on a fuel
  argument that exceeds the length of any on-board ray, so the recursion
  always stops through the loop's own exit conditions first.
* Coordinate arithmetic on numpy arrays is modelled by value (the in-place
  aliasing of `+=` on an already-appended array is not modelled; every fact
  proved below about a surplus listed move names a move that is present
  under either reading).
-/

/-- numpy indexing along one axis of size `d`: an index in `[0, d)` is used
as is, an index in `[-d, 0)` wraps to the far end, anything else raises
`IndexError` (modelled as `none`). -/
def npAxis (d i : Int) : Option Int :=
  if 0 ≤ i ∧ i < d then some i
  else if -d ≤ i ∧ i < 0 then some (i + d)
  else none

/-- Movement archetype of a concrete piece class, used to dispatch the
polymorphic `list_moves` exactly as the loaded subclass would. -/
inductive Archetype where
  | pawn
  | knight
  | bishop
  | rook
  | queen
  | king
  deriving DecidableEq, Repr

/-- Mutable attributes of a `Piece` object
(src/omc/core/model/board.py, class `Piece`). `currentCoords = none` is the
off-board sentinel set by `remove_from_play`. -/
structure PieceState where
  pieceChar : Char
  piecePxlHex : Nat
  currentCoords : Option (Int × Int)
  startingCoords : Int × Int
  playerController : Int
  archetype : Archetype
  cachedMoves : List (Int × Int)
  lastBoardStateHash : Int
  deriving DecidableEq, Repr

/-- Mutable attributes of a `Player` (src/omc/core/model/board.py) together
with the `ChessPlayer` extension fields
(src/resources/sets/base_set/chess_player.py). -/
structure PlayerState where
  pieces : List Nat
  inCheck : Bool
  threatenedSpaces : List (Int × Int)
  deriving DecidableEq, Repr

/-- The whole object graph: one `Board` with its layout grid (keyed by
storage index), the piece objects (keyed by id, modelling identity) and the
player registry (keyed by player number).  `hashDirty` is the board's
`_board_state_hash_dirty` flag. -/
structure GameState where
  dims : Int × Int
  grid : List ((Int × Int) × Nat)
  pieces : List (Nat × PieceState)
  players : List (Int × PlayerState)
  hashDirty : Bool
  deriving DecidableEq, Repr

/-- Association-list lookup (first match wins, like a map). -/
def assocFind {α β : Type} [DecidableEq α] : List (α × β) → α → Option β
  | [], _ => none
  | e :: rest, k => if e.1 = k then some e.2 else assocFind rest k

/-- Write `None` into a layout cell: drop every entry at the index. -/
def gridClear : List ((Int × Int) × Nat) → Int × Int →
    List ((Int × Int) × Nat)
  | [], _ => []
  | e :: rest, idx =>
    if e.1 = idx then gridClear rest idx else e :: gridClear rest idx

/-- Write a piece into a layout cell. -/
def gridSet (g : List ((Int × Int) × Nat)) (idx : Int × Int) (pid : Nat) :
    List ((Int × Int) × Nat) :=
  (idx, pid) :: gridClear g idx

def getPiece (s : GameState) (pid : Nat) : Option PieceState :=
  assocFind s.pieces pid

def getPlayer (s : GameState) (n : Int) : Option PlayerState :=
  assocFind s.players n

/-- `Board.query_space` (src/omc/core/model/board.py:327): the coordinate is
reversed by `coord_to_index` and looked up in the layout; numpy resolves each
axis by `npAxis` (axis 0 of the layout has size `dims.1`, axis 1 size
`dims.2`); an `IndexError` is caught and yields `None`. -/
def querySpace (s : GameState) (c : Int × Int) : Option Nat :=
  match npAxis s.dims.1 c.2 with
  | none => none
  | some i0 =>
    match npAxis s.dims.2 c.1 with
    | none => none
    | some i1 => assocFind s.grid (i0, i1)

/-- `Board.on_board` (src/omc/core/model/board.py:287): every axis of the
coordinate lies in `[0, dimension)`, the coordinate zipped with `dimensions`
in order. -/
def onBoardB (dims : Int × Int) (c : Int × Int) : Bool :=
  (0 ≤ c.1 && c.1 < dims.1) && (0 ≤ c.2 && c.2 < dims.2)

/-- Controller of the occupant of a space, when there is one: the usage
pattern `query_space(x).player_controller` of every `list_moves`. -/
def queryController (s : GameState) (c : Int × Int) : Option Int :=
  match querySpace s c with
  | none => none
  | some pid =>
    match getPiece s pid with
    | none => none
    | some ps => some ps.playerController

def cadd (a b : Int × Int) : Int × Int := (a.1 + b.1, a.2 + b.2)

/-- One direction of the `ChessPiece.list_moves` walk
(src/resources/sets/base_set/helper/chess_piece.py:30-46): while the tried
cell is on the board, an empty cell is appended and the walk continues only
when `MULTI_STEP`; an opposing-controlled cell is appended and ends the walk;
a same-controller cell is not appended, and — exactly as in the source,
where neither branch of the `if`/`elif` runs and the loop reaches
`try_move += direction` — the walk continues past it when `MULTI_STEP`. -/
def chessWalkDir (dims : Int × Int) (qc : Int × Int → Option Int)
    (selfCtl : Int) (multiStep : Bool) (dir : Int × Int) :
    Nat → Int × Int → List (Int × Int)
  | 0, _ => []
  | fuel + 1, pos =>
    if onBoardB dims pos then
      match qc pos with
      | none =>
        pos :: (if multiStep then
          chessWalkDir dims qc selfCtl multiStep dir fuel (cadd pos dir)
        else [])
      | some ctl =>
        if ctl ≠ selfCtl then [pos]
        else if multiStep then
          chessWalkDir dims qc selfCtl multiStep dir fuel (cadd pos dir)
        else []
    else []

/-- Fuel that exceeds the number of on-board cells of any ray, so the walk
always stops through its own `on_board`/`break` conditions. -/
def walkFuel (dims : Int × Int) : Nat :=
  dims.1.natAbs + dims.2.natAbs + 1

/-- `ChessPiece.list_moves`
(src/resources/sets/base_set/helper/chess_piece.py:18-48): the walks of all
directions, in order, concatenated. -/
def chessPieceListMoves (dims : Int × Int) (qc : Int × Int → Option Int)
    (dirs : List (Int × Int)) (multiStep : Bool) (selfCtl : Int)
    (cur : Int × Int) : List (Int × Int) :=
  dirs.flatMap (fun dir =>
    chessWalkDir dims qc selfCtl multiStep dir (walkFuel dims) (cadd cur dir))

/-- One direction of `Rook.list_moves`
(src/resources/sets/base_set/pieces/rook.py:36-47): like the multi-step
`ChessPiece` walk — in particular the loop body has no `break` for a
same-controller cell, so the walk continues past it. -/
def rookWalkDir (dims : Int × Int) (qc : Int × Int → Option Int)
    (selfCtl : Int) (dir : Int × Int) : Nat → Int × Int → List (Int × Int)
  | 0, _ => []
  | fuel + 1, pos =>
    if onBoardB dims pos then
      match qc pos with
      | none => pos :: rookWalkDir dims qc selfCtl dir fuel (cadd pos dir)
      | some ctl =>
        if ctl ≠ selfCtl then [pos]
        else rookWalkDir dims qc selfCtl dir fuel (cadd pos dir)
    else []

/-- `Rook._directions` in source order
(src/resources/sets/base_set/pieces/rook.py:17-22; the source writes a
Python set literal, so only membership is specified there — the written
order is used here). -/
def rookDirections : List (Int × Int) := [(1, 0), (-1, 0), (0, -1), (0, 1)]

/-- `Rook.list_moves` (src/resources/sets/base_set/pieces/rook.py:24-48). -/
def rookListMoves (dims : Int × Int) (qc : Int × Int → Option Int)
    (selfCtl : Int) (cur : Int × Int) : List (Int × Int) :=
  rookDirections.flatMap (fun dir =>
    rookWalkDir dims qc selfCtl dir (walkFuel dims) (cadd cur dir))

/-- `Knight._directions` in source order
(src/resources/sets/base_set/pieces/knight.py:17-26). -/
def knightDirections : List (Int × Int) :=
  [(2, 1), (1, 2), (-1, 2), (-2, 1), (-2, -1), (-1, -2), (1, -2), (2, -1)]

/-- `Knight.list_moves` (src/resources/sets/base_set/pieces/knight.py:28-50):
each delta is tried with `query_space` only — there is no `on_board` check —
and appended when the space reads empty or opposing-controlled. -/
def knightListMoves (qc : Int × Int → Option Int) (selfCtl : Int)
    (cur : Int × Int) : List (Int × Int) :=
  knightDirections.flatMap (fun dir =>
    let tryMove := cadd cur dir
    match qc tryMove with
    | none => [tryMove]
    | some ctl => if ctl ≠ selfCtl then [tryMove] else [])

/-- `Pawn._moving_down` and `_direction`
(src/resources/sets/base_set/pieces/pawn.py:52-63): player-number parity
selects `(0, 1)` (odd controller) or `(0, -1)`. -/
def pawnDirection (selfCtl : Int) : Int × Int :=
  if selfCtl % 2 = 1 then (0, 1) else (0, -1)

/-- `Pawn.list_moves` (src/resources/sets/base_set/pieces/pawn.py:65-106):
forward one iff that space reads empty; forward two iff the current
coordinate still equals the starting coordinate and the forward-two space
reads empty (the source does not look at the intermediate space); a
diagonal-forward space iff it holds an opposing-controlled piece. -/
def pawnListMoves (qc : Int × Int → Option Int) (selfCtl : Int)
    (cur start : Int × Int) : List (Int × Int) :=
  let dir := pawnDirection selfCtl
  let moveF := cadd cur dir
  let moveFF := cadd cur (cadd dir dir)
  let moveFL := cadd (cadd cur dir) (1, 0)
  let moveFR := cadd (cadd cur dir) (-1, 0)
  (if qc moveF = none then [moveF] else []) ++
  (if cur = start ∧ qc moveFF = none then [moveFF] else []) ++
  (match qc moveFL with
   | some ctl => if ctl ≠ selfCtl then [moveFL] else []
   | none => []) ++
  (match qc moveFR with
   | some ctl => if ctl ≠ selfCtl then [moveFR] else []
   | none => [])

/-- `Queen.DIRECTIONS` = `King.DIRECTIONS`
(src/resources/sets/base_set/pieces/queen.py:11-20, king.py:11-20). -/
def eightDirections : List (Int × Int) :=
  [(1, 0), (1, 1), (0, 1), (-1, 1), (-1, 0), (-1, -1), (0, -1), (1, -1)]

/-- `Bishop.DIRECTIONS` (src/data/sets/base_set/pieces/bishop.py:9-14). -/
def bishopDirections : List (Int × Int) :=
  [(1, 1), (-1, 1), (-1, -1), (1, -1)]

/-- Polymorphic `list_moves` dispatch: each loaded subclass overrides
`list_moves`, so a piece's moves are computed by its archetype's algorithm
over the live board.  A piece whose `currentCoords` is the off-board
sentinel would crash in Python (`None + direction`), modelled as `none`. -/
def listMovesDispatch (s : GameState) (pid : Nat) :
    Option (List (Int × Int)) := do
  let ps ← getPiece s pid
  let cur ← ps.currentCoords
  let qc := queryController s
  match ps.archetype with
  | .pawn => pure (pawnListMoves qc ps.playerController cur ps.startingCoords)
  | .knight => pure (knightListMoves qc ps.playerController cur)
  | .bishop => pure (chessPieceListMoves s.dims qc bishopDirections true
      ps.playerController cur)
  | .rook => pure (rookListMoves s.dims qc ps.playerController cur)
  | .queen => pure (chessPieceListMoves s.dims qc eightDirections true
      ps.playerController cur)
  | .king => pure (chessPieceListMoves s.dims qc eightDirections false
      ps.playerController cur)

/-- Update one piece's state in place (by id). -/
def setPieceState (s : GameState) (pid : Nat) (f : PieceState → PieceState) :
    GameState :=
  { s with pieces := s.pieces.map (fun e =>
      if e.1 = pid then (e.1, f e.2) else e) }

/-- `Piece.remove_from_play` (board.py:682-687): the current coordinates are
set to the off-board sentinel. -/
def removeFromPlay (s : GameState) (pid : Nat) : GameState :=
  setPieceState s pid (fun ps => { ps with currentCoords := none })

def setPieceCoords (s : GameState) (pid : Nat) (c : Option (Int × Int)) :
    GameState :=
  setPieceState s pid (fun ps => { ps with currentCoords := c })

/-- `Piece.__eq__` (board.py:662-680) on the attributes that can differ for
two pieces of one board (`board_id` and `current_players` coincide for
pieces of the same board). -/
def pieceStructEq (a b : PieceState) : Bool :=
  a.currentCoords = b.currentCoords && a.playerController = b.playerController
    && a.piecePxlHex = b.piecePxlHex && a.pieceChar = b.pieceChar

/-- `Board.remove_piece` (board.py:137-153): when the occupant of the
piece's current coordinates does not compare equal to the piece, report
`False` without mutation; otherwise clear the cell, call the piece's
`remove_from_play`, and mark the fingerprint dirty.  A piece whose
coordinates are the off-board sentinel crashes (`reversed(None)`),
modelled as `none`. -/
def omcRemovePiece (s : GameState) (pid : Nat) :
    Option (GameState × Bool) :=
  match getPiece s pid with
  | none => none
  | some ps =>
    match ps.currentCoords with
    | none => none
    | some c =>
      match querySpace s c with
      | none => some (s, false)
      | some oid =>
        match getPiece s oid with
        | none => none
        | some os =>
          if pieceStructEq os ps then
            match npAxis s.dims.1 c.2, npAxis s.dims.2 c.1 with
            | some i0, some i1 =>
              some ({ (removeFromPlay
                { s with grid := gridClear s.grid (i0, i1) } pid) with
                hashDirty := true }, true)
            | _, _ => none
          else some (s, false)

/-- `Board.add_piece` (board.py:120-135): when the piece's current
coordinates are occupied, report `False` without mutation; otherwise store
the piece at `coord_to_index` of its coordinates and mark the fingerprint
dirty.  The layout assignment is not guarded by the caught `IndexError` of
`query_space`, so coordinates outside numpy's index range crash
(`none`), as do sentinel coordinates. -/
def omcAddPiece (s : GameState) (pid : Nat) : Option (GameState × Bool) :=
  match getPiece s pid with
  | none => none
  | some ps =>
    match ps.currentCoords with
    | none => none
    | some c =>
      match querySpace s c with
      | some _ => some (s, false)
      | none =>
        match npAxis s.dims.1 c.2, npAxis s.dims.2 c.1 with
        | some i0, some i1 =>
          let s1 :=
            { s with grid := gridSet s.grid (i0, i1) pid, hashDirty := true }
          some (s1, true)
        | _, _ => none

/-- `Piece.move` (board.py:555-576): reject a target absent from
`list_moves()` with `False` and no mutation; otherwise remove the mover from
the board, set its coordinates to the target, remove any occupant of the
target from the board (its `remove_from_play` gives it the off-board
sentinel), and re-add the mover. -/
def omcPieceMove (s : GameState) (pid : Nat) (t : Int × Int) :
    Option (GameState × Bool) :=
  match listMovesDispatch s pid with
  | none => none
  | some moves =>
    if t ∈ moves then
      match omcRemovePiece s pid with
      | none => none
      | some (s1, _) =>
        let s2 := setPieceCoords s1 pid (some t)
        match querySpace s2 t with
        | some q =>
          match omcRemovePiece s2 q with
          | none => none
          | some (s3, _) =>
            match omcAddPiece s3 pid with
            | none => none
            | some (s4, _) => some (s4, true)
        | none =>
          match omcAddPiece s2 pid with
          | none => none
          | some (s4, _) => some (s4, true)
    else some (s, false)

/-- `Piece.capture` of the base-set piece superclass
(src/src/core/model/piece.py:230-244), invoked by `ChessPiece.move` on a
captured piece: on a successful `set_player_control` the coordinates are
set to the sentinel first and `Board.remove_piece` is called after — which
crashes on the sentinel coordinates (`none`); a failed control change
reports `False` with no further action. -/
def srcCapture (s : GameState) (pid : Nat) (newPlayer : Int) :
    Option (GameState × Bool) :=
  match getPiece s pid with
  | none => none
  | some _ =>
    if newPlayer < 0 then some (s, false)
    else if (getPlayer s newPlayer).isNone then some (s, false)
    else
      let s1 := setPieceState s pid (fun ps =>
        { ps with playerController := newPlayer })
      let s2 := setPieceCoords s1 pid none
      match omcRemovePiece s2 pid with
      | none => none
      | some (s3, _) => some (s3, true)

/-- `ChessPiece.move` (src/resources/sets/base_set/helper/chess_piece.py:
50-75): reject a target absent from `list_moves()`; otherwise capture an
opposing occupant of the target via its `capture` method and set the mover's
`_current_coords` — the board layout is never touched. -/
def chessPieceMove (s : GameState) (pid : Nat) (t : Int × Int) :
    Option (GameState × Bool) :=
  match getPiece s pid with
  | none => none
  | some ps =>
    match listMovesDispatch s pid with
    | none => none
    | some moves =>
      if t ∈ moves then
        match querySpace s t with
        | some q =>
          match getPiece s q with
          | none => none
          | some qs =>
            if qs.playerController ≠ ps.playerController then
              match srcCapture s q ps.playerController with
              | none => none
              | some (s1, _) =>
                some (setPieceCoords s1 pid (some t), true)
            else some (setPieceCoords s pid (some t), true)
        | none => some (setPieceCoords s pid (some t), true)
      else some (s, false)

/-- Update one player's state in place (by number). -/
def setPlayerState (s : GameState) (n : Int) (f : PlayerState → PlayerState) :
    GameState :=
  { s with players := s.players.map (fun e =>
      if e.1 = n then (e.1, f e.2) else e) }

/-- The in-loop check of `update_threatened_spaces`: the queried space holds
a piece whose glyph is `'K'` and whose controller differs from this
player. -/
def kingThreatB (s : GameState) (selfNum : Int) (sq : Int × Int) : Bool :=
  match querySpace s sq with
  | some th =>
    match getPiece s th with
    | some ts => ts.pieceChar = 'K' && ts.playerController ≠ selfNum
    | none => false
  | none => false

/-- One piece's turn of the loop of `update_threatened_spaces`
(chess_player.py:49-89): a pawn (glyph `'P'`) with a nonempty move list
contributes the on-board horizontal neighbours of its *first* listed move
(`list_moves()[0]`); every other piece contributes its whole move list; the
`causing_check` contribution is whether any appended space holds an opposing
king. -/
def threatStep (s : GameState) (selfNum : Int) (pid : Nat) :
    Option (List (Int × Int) × Bool) :=
  match getPiece s pid with
  | none => none
  | some ps =>
    match listMovesDispatch s pid with
    | none => none
    | some moves =>
      if ps.pieceChar = 'P' ∧ moves ≠ [] then
        match moves with
        | [] => none
        | base :: _ =>
          let leftCapture := (base.1 - 1, base.2)
          let rightCapture := (base.1 + 1, base.2)
          let pl := if onBoardB s.dims leftCapture
            then ([leftCapture], kingThreatB s selfNum leftCapture)
            else ([], false)
          let pr := if onBoardB s.dims rightCapture
            then ([rightCapture], kingThreatB s selfNum rightCapture)
            else ([], false)
          some (pl.1 ++ pr.1, pl.2 || pr.2)
      else
        some (moves, moves.any (kingThreatB s selfNum))

/-- The whole loop of `update_threatened_spaces`, accumulating the
threatened spaces in piece order and or-ing the check contributions. -/
def threatFold (s : GameState) (selfNum : Int) :
    List Nat → Option (List (Int × Int) × Bool)
  | [] => some ([], false)
  | pid :: rest =>
    match threatStep s selfNum pid with
    | none => none
    | some (c, b) =>
      match threatFold s selfNum rest with
      | none => none
      | some (cs, bs) => some (c ++ cs, b || bs)

/-- `ChessPlayer.update_threatened_spaces` (chess_player.py:40-95): crashes
on an empty piece list (`self._pieces[0]`); when some appended space held an
opposing king, the opposing player — number `(self % 2) + 1`, fetched with
`get_player`, a `KeyError` when absent — has `in_check` set; finally the
player's `_threatened_spaces` is replaced. -/
def updateThreatenedSpaces (s : GameState) (selfNum : Int) :
    Option GameState :=
  match getPlayer s selfNum with
  | none => none
  | some pl =>
    match pl.pieces with
    | [] => none
    | _ =>
      match threatFold s selfNum pl.pieces with
      | none => none
      | some (spaces, causing) =>
        if causing then
          match getPlayer s (selfNum % 2 + 1) with
          | none => none
          | some _ =>
            some (setPlayerState
              (setPlayerState s (selfNum % 2 + 1)
                (fun p => { p with inCheck := true }))
              selfNum (fun p => { p with threatenedSpaces := spaces }))
        else
          some (setPlayerState s selfNum
            (fun p => { p with threatenedSpaces := spaces }))

/-- A Python literal as produced by `ast.literal_eval` on a board layout
field: strings, integers and (nested) lists. -/
inductive PyLit where
  | pstr (s : String)
  | pint (n : Int)
  | plist (xs : List PyLit)

/-- Outcome of `ast.literal_eval`. -/
inductive LitEval where
  | ok (v : PyLit)
  | valueError
  | syntaxError

/-- Oracles for the Python library calls of the loader. -/
structure PyEnv where
  pyInt : String → Option Int
  literalEval : String → LitEval

/-- The errors `get_board`/`get_piece_map` can finish with: the typed
exceptions raised by the loader itself plus the untyped Python exceptions
that escape it. -/
inductive LoadErr where
  | boardNotFound
  | invalidBoardFormat
  | emptyBoard
  | invalidBoardDimension
  | invalidBoardLayout
  | piecesNotFound
  | piecesEmpty
  | valueError
  | syntaxError
  | attributeError
  deriving DecidableEq, Repr

/-- The csv loop of `get_board` (load_set.py:160-170): each row must have
exactly 3 fields (`InvalidBoardFormat` otherwise); the raw fields keep the
values of the last row, starting from empty strings. -/
def scanBoardRows : List (List String) → String × String × String →
    Except LoadErr (String × String × String)
  | [], acc => .ok acc
  | row :: rest, _ =>
    match row with
    | [a, b, c] => scanBoardRows rest (a, b, c)
    | _ => .error .invalidBoardFormat

mutual

/-- Leaves of the nested layout literal in order, as
`np.array(...).flatten()` enumerates them. -/
def flattenLit : PyLit → List PyLit
  | .pstr s => [.pstr s]
  | .pint n => [.pint n]
  | .plist xs => flattenLitList xs

def flattenLitList : List PyLit → List PyLit
  | [] => []
  | v :: rest => flattenLit v ++ flattenLitList rest

end

/-- Python truthiness of a flattened layout cell (`if x` in the
player-number set comprehension). -/
def pyTruthy : PyLit → Bool
  | .pstr s => s != ""
  | .pint n => n != 0
  | .plist [] => false
  | .plist (_ :: _) => true

/-- `raw_piece_name.partition('_')[0]`: the part before the first
underscore (the whole string when there is none). -/
def beforeUnderscore (s : String) : String :=
  String.mk (s.toList.takeWhile (fun ch => ch ≠ '_'))

/-- `.lstrip('p')`: drop leading `'p'` characters. -/
def lstripP (s : String) : String :=
  String.mk (s.toList.dropWhile (fun ch => ch = 'p'))

/-- `get_player_number_from_raw_piece_name` (load_set.py:213-214) applied
to one flattened layout cell: a non-string cell has no `partition`
attribute (`AttributeError`); a string whose stripped prefix `int()`
rejects raises `ValueError` — both escape `get_board` untyped. -/
def playerNumberOfCell (env : PyEnv) : PyLit → Except LoadErr Int
  | .pstr s =>
    match env.pyInt (lstripP (beforeUnderscore s)) with
    | some n => .ok n
    | none => .error .valueError
  | _ => .error .attributeError

/-- `player_numbers` (load_set.py:216-220): the numbers of the truthy
flattened cells, each first occurrence kept (the source builds a Python
set; only membership and the induced failures matter downstream). -/
def playerNumbersOfLayout (env : PyEnv) (v : PyLit) :
    Except LoadErr (List Int) :=
  (flattenLit v).filter pyTruthy |>.foldr
    (fun cell acc => do
      let n ← playerNumberOfCell env cell
      let ns ← acc
      pure (if n ∈ ns then ns else n :: ns))
    (.ok [])

/-- What `get_board` has established once the board record passed every
layout-stage validation: the parsed dimensions (the board is allocated as
`Board.empty(0, (columns, rows))`) and the distinct player numbers. -/
structure BoardStub where
  columns : Int
  rows : Int
  playerNumbers : List Int
  deriving DecidableEq, Repr

/-- `get_board` (src/omc/core/load_set.py:132-286) through the stages the
load-failure claims are about, over the already-split csv rows: field-count
check, empty-layout check, integer dimensions (`int()` failures become
`InvalidBoardDimension`), layout literal (`ast.literal_eval`: only a
`ValueError` becomes `InvalidBoardLayout`; a `SyntaxError` escapes
untyped), then the player-number extraction (whose `AttributeError` /
`ValueError` escape untyped).  The `Board` is allocated only after all of
this, so an error at any of these stages returns no board at all.  (The
superseded iteration src/src/core/load_set.py:118-241 shares these stages
verbatim.) -/
def get_board_model (env : PyEnv) (rows : List (List String)) :
    Except LoadErr BoardStub :=
  match scanBoardRows rows ("", "", "") with
  | .error e => .error e
  | .ok (rawRows, rawColumns, rawLayout) =>
    if rawLayout = "" then .error .emptyBoard
    else
      match env.pyInt rawRows with
      | none => .error .invalidBoardDimension
      | some nrows =>
        match env.pyInt rawColumns with
        | none => .error .invalidBoardDimension
        | some ncols =>
          match env.literalEval rawLayout with
          | .valueError => .error .invalidBoardLayout
          | .syntaxError => .error .syntaxError
          | .ok lit =>
            match playerNumbersOfLayout env lit with
            | .error e => .error e
            | .ok pns =>
              .ok { columns := ncols, rows := nrows, playerNumbers := pns }

/-- One directory entry as `listdir` + `isfile` see it. -/
structure DirEntry where
  name : String
  isFile : Bool
  deriving DecidableEq, Repr

/-- `file_name.endswith('.py')` over the file name's characters. -/
def endsWithDotPy (s : String) : Bool :=
  match s.toList.reverse with
  | 'y' :: 'p' :: '.' :: _ => true
  | _ => false

/-- The filter of the `get_piece_map` loop (load_set.py:108-114): regular
files ending in `.py`, except `__init__.py`. -/
def pieceCandidate (e : DirEntry) : Bool :=
  e.isFile && endsWithDotPy e.name && e.name ≠ "__init__.py"

/-- `file_name.partition('.py')[0]`: the part before the first occurrence
of `.py`. -/
def beforeDotPy : List Char → List Char
  | [] => []
  | '.' :: 'p' :: 'y' :: _ => []
  | ch :: rest => ch :: beforeDotPy rest

/-- The `get_piece_map` loop (load_set.py:107-121) in `listdir` order:
skipped entries contribute nothing; a candidate file's module is resolved
through the oracle (`none` = the dynamic `getattr` fails, an untyped
`AttributeError` that aborts the loop) and its derived name is recorded. -/
def buildPieceMap (resolve : String → Option Unit) :
    List DirEntry → List String → Except LoadErr (List String)
  | [], acc => .ok acc
  | e :: rest, acc =>
    if pieceCandidate e then
      let pieceName := String.mk (beforeDotPy e.name.toList)
      match resolve pieceName with
      | some _ => buildPieceMap resolve rest (acc ++ [pieceName])
      | none => .error .attributeError
    else buildPieceMap resolve rest acc

/-- `get_piece_map` (src/omc/core/load_set.py:88-129): an absent pieces
directory raises `PiecesNotFound`; an empty result map after the loop
raises `PiecesEmpty`. -/
def get_piece_map_model (dirExists : Bool) (entries : List DirEntry)
    (resolve : String → Option Unit) : Except LoadErr (List String) :=
  if !dirExists then .error .piecesNotFound
  else
    match buildPieceMap resolve entries [] with
    | .error e => .error e
    | .ok [] => .error .piecesEmpty
    | .ok m => .ok m

/-- A freshly constructed piece: `_starting_coords` is the construction
coordinate and the move cache starts as `([], 0)`
(src/omc/core/model/board.py:447-448, 465-467). -/
def mkPiece (ch : Char) (ctl : Int) (c : Int × Int) (a : Archetype) :
    PieceState :=
  { pieceChar := ch, piecePxlHex := 1, currentCoords := some c,
    startingCoords := c, playerController := ctl, archetype := a,
    cachedMoves := [], lastBoardStateHash := 0 }

def mkPlayer (pids : List Nat) : PlayerState :=
  { pieces := pids, inCheck := false, threatenedSpaces := [] }

/-- The layout cells induced by a list of on-board pieces: each piece is
stored at `coord_to_index` of its coordinates. -/
def gridOfPieces (ps : List (Nat × PieceState)) : List ((Int × Int) × Nat) :=
  ps.filterMap (fun e => e.2.currentCoords.map (fun c => ((c.2, c.1), e.1)))

/-- A lone king (a `ChessPiece` subclass) of player 1 at the origin of an
empty 2×2 board. -/
def kingPieces : List (Nat × PieceState) := [(0, mkPiece 'K' 1 (0, 0) .king)]

def stateC1 : GameState :=
  { dims := (2, 2), grid := gridOfPieces kingPieces, pieces := kingPieces,
    players := [(1, mkPlayer [0])], hashDirty := false }

/-- Player 1's rook at (0,0) with its own pawn at (0,3) and an opposing
pawn at (0,6) on an 8×8 board: the first occupied cell up the file is the
same-controller pawn. -/
def rookFilePieces : List (Nat × PieceState) :=
  [(0, mkPiece 'R' 1 (0, 0) .rook),
   (1, mkPiece 'P' 1 (0, 3) .pawn),
   (2, mkPiece 'P' 2 (0, 6) .pawn)]

def stateC2 : GameState :=
  { dims := (8, 8), grid := gridOfPieces rookFilePieces,
    pieces := rookFilePieces,
    players := [(1, mkPlayer [0, 1]), (2, mkPlayer [2])],
    hashDirty := false }

/-- Player 1's pawn on its starting square (1,1), its forward-one square
(1,2) blocked by an opposing pawn, the forward-two square (1,3) empty:
the configuration of the repository's own test
(src/tests/unit/test_base_set.py:48-61, which expects no moves). -/
def blockedPawnPieces : List (Nat × PieceState) :=
  [(0, mkPiece 'P' 1 (1, 1) .pawn),
   (1, mkPiece 'P' 2 (1, 2) .pawn)]

def stateC3 : GameState :=
  { dims := (8, 8), grid := gridOfPieces blockedPawnPieces,
    pieces := blockedPawnPieces,
    players := [(1, mkPlayer [0]), (2, mkPlayer [1])],
    hashDirty := false }

/-- The standard 8×8 opening layout as the repository's tests read it
(player 1 on ranks 0-1 with king at (3,0) and queen at (4,0), player 2
mirrored on ranks 6-7): ids 0-15 are player 1's pieces, 16-31 player 2's. -/
def standardPieces : List (Nat × PieceState) :=
  [(0, mkPiece 'R' 1 (0, 0) .rook), (1, mkPiece 'N' 1 (1, 0) .knight),
   (2, mkPiece 'B' 1 (2, 0) .bishop), (3, mkPiece 'K' 1 (3, 0) .king),
   (4, mkPiece 'Q' 1 (4, 0) .queen), (5, mkPiece 'B' 1 (5, 0) .bishop),
   (6, mkPiece 'N' 1 (6, 0) .knight), (7, mkPiece 'R' 1 (7, 0) .rook),
   (8, mkPiece 'P' 1 (0, 1) .pawn), (9, mkPiece 'P' 1 (1, 1) .pawn),
   (10, mkPiece 'P' 1 (2, 1) .pawn), (11, mkPiece 'P' 1 (3, 1) .pawn),
   (12, mkPiece 'P' 1 (4, 1) .pawn), (13, mkPiece 'P' 1 (5, 1) .pawn),
   (14, mkPiece 'P' 1 (6, 1) .pawn), (15, mkPiece 'P' 1 (7, 1) .pawn),
   (16, mkPiece 'P' 2 (0, 6) .pawn), (17, mkPiece 'P' 2 (1, 6) .pawn),
   (18, mkPiece 'P' 2 (2, 6) .pawn), (19, mkPiece 'P' 2 (3, 6) .pawn),
   (20, mkPiece 'P' 2 (4, 6) .pawn), (21, mkPiece 'P' 2 (5, 6) .pawn),
   (22, mkPiece 'P' 2 (6, 6) .pawn), (23, mkPiece 'P' 2 (7, 6) .pawn),
   (24, mkPiece 'R' 2 (0, 7) .rook), (25, mkPiece 'N' 2 (1, 7) .knight),
   (26, mkPiece 'B' 2 (2, 7) .bishop), (27, mkPiece 'K' 2 (3, 7) .king),
   (28, mkPiece 'Q' 2 (4, 7) .queen), (29, mkPiece 'B' 2 (5, 7) .bishop),
   (30, mkPiece 'N' 2 (6, 7) .knight), (31, mkPiece 'R' 2 (7, 7) .rook)]

def standardBoard : GameState :=
  { dims := (8, 8), grid := gridOfPieces standardPieces,
    pieces := standardPieces,
    players :=
      [(1, mkPlayer [0, 1, 2, 3, 4, 5, 6, 7, 8, 9, 10, 11, 12, 13, 14, 15]),
       (2, mkPlayer [16, 17, 18, 19, 20, 21, 22, 23, 24, 25, 26, 27, 28, 29,
         30, 31])],
    hashDirty := false }

/-- What the knight at (1,0) lists on the standard opening layout. -/
def knightReportedMoves : List (Int × Int) :=
  [(2, 2), (0, 2), (-1, -1), (0, -2), (2, -2), (3, -1)]

/-- The base `Piece.list_moves` (board.py:543-553): returns the cached list
when the current board fingerprint equals the one stored with the cache, and
raises `NotImplementedError` otherwise (`none`).  Nothing in the repository
ever writes `_cached_moves`/`_last_board_state_hash` after their
initialisation to `([], 0)`, and every concrete archetype overrides
`list_moves` without consulting them. -/
def pieceListMovesBase (boardHash : Int) (ps : PieceState) :
    Option (List (Int × Int)) :=
  if boardHash = ps.lastBoardStateHash then some ps.cachedMoves else none

/-- Overwrite one piece's cache fields, leaving every field that the
archetype `list_moves` implementations read untouched. -/
def setPieceCache (s : GameState) (pid : Nat) (mvs : List (Int × Int))
    (h : Int) : GameState :=
  setPieceState s pid (fun ps =>
    { ps with cachedMoves := mvs, lastBoardStateHash := h })

/-- Reuse of the lone-king scenario for the cache claims. -/
def stateC4 : GameState :=
  { dims := (2, 2), grid := gridOfPieces kingPieces, pieces := kingPieces,
    players := [(1, mkPlayer [0])], hashDirty := false }

/-- A lone pawn of player 2 at (1,0) on a 2×2 board: the wrapped cell of
the negative coordinate (-1,0). -/
def lonePawnPieces : List (Nat × PieceState) :=
  [(0, mkPiece 'P' 2 (1, 0) .pawn)]

def stateC5 : GameState :=
  { dims := (2, 2), grid := gridOfPieces lonePawnPieces,
    pieces := lonePawnPieces, players := [(2, mkPlayer [0])],
    hashDirty := false }

/-- Oracles under which the layout field `"[1]"` parses to the integer
literal `[1]` — a well-formed literal that is not a nested literal of
strings. -/
def envC7 : PyEnv :=
  { pyInt := fun str => if str = "8" then some 8 else none,
    literalEval := fun str =>
      if str = "[1]" then .ok (.plist [.pint 1]) else .valueError }

/-- Oracles for the witness records: `"4"` is the only parsable integer,
`"VE"`/`"SE"` are layouts on which `ast.literal_eval` raises
`ValueError`/`SyntaxError`. -/
def envC7W : PyEnv :=
  { pyInt := fun str => if str = "4" then some 4 else none,
    literalEval := fun str =>
      if str = "VE" then .valueError
      else if str = "SE" then .syntaxError
      else .ok (.pstr "") }

/-- One piece's contribution to the threatened spaces as
`update_threatened_spaces` computes it, stated directly: a pawn with a
nonempty move list contributes the on-board horizontal neighbours of its
first listed move, every other piece its whole move list. -/
def threatContribSpec (s : GameState) (_selfNum : Int) (pid : Nat) :
    Option (List (Int × Int)) :=
  match getPiece s pid with
  | none => none
  | some ps =>
    match listMovesDispatch s pid with
    | none => none
    | some moves =>
      if ps.pieceChar = 'P' ∧ moves ≠ [] then
        match moves with
        | [] => none
        | base :: _ =>
          some (([(base.1 - 1, base.2), (base.1 + 1, base.2)]).filter
            (fun sq => onBoardB s.dims sq))
      else some moves

/-- The concatenation of the owned pieces' contributions in order. -/
def threatUnion (s : GameState) (selfNum : Int) :
    List Nat → Option (List (Int × Int))
  | [] => some []
  | pid :: rest =>
    match threatContribSpec s selfNum pid with
    | none => none
    | some c =>
      match threatUnion s selfNum rest with
      | none => none
      | some cs => some (c ++ cs)

/-- A player-1 pawn on its start square (1,1), its forward-one square
blocked by an opposing pawn at (1,2), and the opposing king on the pawn's
diagonal capture square (2,2) of a 4×4 board. -/
def checkPawnPieces : List (Nat × PieceState) :=
  [(0, mkPiece 'P' 1 (1, 1) .pawn),
   (1, mkPiece 'P' 2 (1, 2) .pawn),
   (2, mkPiece 'K' 2 (2, 2) .king)]

def stateC9 : GameState :=
  { dims := (4, 4), grid := gridOfPieces checkPawnPieces,
    pieces := checkPawnPieces,
    players := [(1, mkPlayer [0]), (2, mkPlayer [1, 2])],
    hashDirty := false }

/-- The board state `Board.remove_piece` leaves behind on success: the cell
of coordinate `c` cleared, the removed piece's coordinates set to the
sentinel, the fingerprint dirty. -/
def removedState (s : GameState) (pid : Nat) (c : Int × Int) : GameState :=
  { (removeFromPlay { s with grid := gridClear s.grid (c.2, c.1) } pid) with
    hashDirty := true }

/-- The board state `Board.add_piece` leaves behind on success: the mover
stored at `coord_to_index` of `t`, the fingerprint dirty. -/
def addedState (s : GameState) (pid : Nat) (t : Int × Int) : GameState :=
  { s with grid := gridSet s.grid (t.2, t.1) pid, hashDirty := true }

/-- Player 1's rook at (0,0) and player 2's pawn at (0,2) on a 3×3 board:
the rook captures up the file. -/
def capturePieces : List (Nat × PieceState) :=
  [(0, mkPiece 'R' 1 (0, 0) .rook), (1, mkPiece 'P' 2 (0, 2) .pawn)]

def stateC10 : GameState :=
  { dims := (3, 3), grid := gridOfPieces capturePieces,
    pieces := capturePieces,
    players := [(1, mkPlayer [0]), (2, mkPlayer [1])], hashDirty := false }

/-! ## Theorems -/

/-- The claim says `move` fails without mutation on an illegal target and
otherwise relocates the mover in the board's occupancy.  `ChessPiece.move`
(chess_piece.py:50-75) indeed reports `True` and moves the piece's own
coordinate, but never touches the board layout or the fingerprint flag: the
king moved from (0,0) to the legal empty square (0,1) still occupies (0,0)
in the layout while (0,1) reads empty.  The inherited `Piece.move`
(board.py:555-576), run on the same input, does relocate the occupancy and
dirty the fingerprint. -/
theorem chessPieceMove_reports_success_without_updating_occupancy :
    ((chessPieceMove stateC1 0 (0, 1)).map Prod.snd = some true) ∧
    ((chessPieceMove stateC1 0 (0, 1)).map
      (fun r => querySpace r.1 (0, 0)) = some (some 0)) ∧
    ((chessPieceMove stateC1 0 (0, 1)).map
      (fun r => querySpace r.1 (0, 1)) = some none) ∧
    ((chessPieceMove stateC1 0 (0, 1)).map
      (fun r => (getPiece r.1 0).map (fun p => p.currentCoords)) =
      some (some (some (0, 1)))) ∧
    ((chessPieceMove stateC1 0 (0, 1)).map
      (fun r => r.1.hashDirty) = some false) ∧
    ((omcPieceMove stateC1 0 (0, 1)).map Prod.snd = some true) ∧
    ((omcPieceMove stateC1 0 (0, 1)).map
      (fun r => querySpace r.1 (0, 0)) = some none) ∧
    ((omcPieceMove stateC1 0 (0, 1)).map
      (fun r => querySpace r.1 (0, 1)) = some (some 0)) ∧
    ((omcPieceMove stateC1 0 (0, 1)).map
      (fun r => r.1.hashDirty) = some true) := by
  decide

/-- The multi-step walk of `Rook.list_moves` (and the identical multi-step
walk of `ChessPiece.list_moves`) continues past a same-controller occupied
cell: with the mover's own pawn at (0,3), the rook at (0,0) still lists
(0,4), (0,5) and the opposing pawn's cell (0,6) — all beyond the first
occupied cell of that direction. -/
theorem slidingWalk_passes_same_controller_blocker :
    (listMovesDispatch stateC2 0 = some
      [(1, 0), (2, 0), (3, 0), (4, 0), (5, 0), (6, 0), (7, 0),
       (0, 1), (0, 2), (0, 4), (0, 5), (0, 6)]) ∧
    (queryController stateC2 (0, 3) = some 1) ∧
    ((getPiece stateC2 0).map (fun p => p.playerController) = some 1) ∧
    ((0, 4) ∈ chessPieceListMoves (8, 8) (queryController stateC2)
      eightDirections true 1 (0, 0)) ∧
    ((0, 6) ∈ chessPieceListMoves (8, 8) (queryController stateC2)
      eightDirections true 1 (0, 0)) := by
  decide

/-- `Pawn.list_moves` lists the forward-two square whenever the pawn still
stands on its starting square and the forward-two square is empty — the
intermediate forward-one square is not consulted: blocked at (1,2) by an
opposing pawn, the pawn at (1,1) still lists (1,3).  The repository's own
test of this position expects an empty move list. -/
theorem pawn_forward_two_ignores_blocked_intermediate :
    (listMovesDispatch stateC3 0 = some [(1, 3)]) ∧
    (querySpace stateC3 (1, 2) = some 1) ∧
    ((getPiece stateC3 1).map (fun p => p.playerController) = some 2) := by
  decide

/-- `Knight.list_moves` performs no `on_board` check, so deltas landing off
the board are filtered only by `query_space` — which wraps negative
coordinates to the far side of the layout.  On the standard opening layout
the knight at (1,0) therefore lists, besides (2,2) and (0,2), four
off-board squares whose wrapped cells hold opposing pieces. -/
theorem knight_lists_offboard_moves_on_standard_opening :
    (listMovesDispatch standardBoard 1 = some knightReportedMoves) ∧
    ((0, -2) ∈ knightReportedMoves) ∧
    (onBoardB (8, 8) (0, -2) = false) ∧
    ((0, -2) ∉ ([(2, 2), (0, 2)] : List (Int × Int))) := by
  decide

/-- The claim's parenthetical says a repeated `list_moves()` call returns
the cached list.  For the king freshly constructed at (0,0) the cache is
the initial empty list while every call — first or second — computes the
three legal moves, so no call returns the cached list. -/
theorem listMoves_second_call_not_cached_counterexample :
    (listMovesDispatch stateC4 0 = some [(1, 0), (1, 1), (0, 1)]) ∧
    ((getPiece stateC4 0).map (fun p => p.cachedMoves) = some []) ∧
    (some [(1, 0), (1, 1), (0, 1)] ≠ (some [] : Option (List (Int × Int)))) := by
  decide

theorem assocFind_mapUpdate {α β : Type} [DecidableEq α] (l : List (α × β))
    (b : α) (f : β → β) (a : α) :
    assocFind (l.map (fun e => if e.1 = b then (e.1, f e.2) else e)) a =
      if a = b then (assocFind l a).map f else assocFind l a := by
  induction l with
  | nil => by_cases hab : a = b <;> simp [assocFind, hab]
  | cons e l ih =>
    by_cases heb : e.1 = b
    · by_cases hea : e.1 = a
      · have hab : a = b := hea.symm.trans heb
        simp [assocFind, heb, hea, hab]
      · have hab : a ≠ b := fun hx => hea (heb.trans hx.symm)
        have hba : ¬b = a := fun hx => hab hx.symm
        simp [assocFind, heb, hea, hab, hba, ih]
    · by_cases hea : e.1 = a
      · have hab : a ≠ b := fun hx => heb (hea.trans hx)
        simp [assocFind, heb, hea, hab]
      · simp [assocFind, heb, hea, ih]

theorem getPiece_setPieceCache (s : GameState) (q : Nat)
    (mvs : List (Int × Int)) (h : Int) (pid : Nat) :
    getPiece (setPieceCache s q mvs h) pid =
      if pid = q then
        (getPiece s pid).map (fun ps =>
          { ps with cachedMoves := mvs, lastBoardStateHash := h })
      else getPiece s pid := by
  have h1 := assocFind_mapUpdate s.pieces q
    (fun ps => { ps with cachedMoves := mvs, lastBoardStateHash := h }) pid
  simpa [getPiece, setPieceCache, setPieceState] using h1

theorem queryController_setPieceCache (s : GameState) (q : Nat)
    (mvs : List (Int × Int)) (h : Int) (c : Int × Int) :
    queryController (setPieceCache s q mvs h) c = queryController s c := by
  unfold queryController
  have h1 : querySpace (setPieceCache s q mvs h) c = querySpace s c := rfl
  rw [h1]
  cases querySpace s c with
  | none => rfl
  | some pid =>
    show (match getPiece (setPieceCache s q mvs h) pid with
          | none => none
          | some ps => some ps.playerController) =
        (match getPiece s pid with
          | none => none
          | some ps => some ps.playerController)
    rw [getPiece_setPieceCache]
    by_cases hpq : pid = q
    · rw [if_pos hpq]
      cases getPiece s pid <;> rfl
    · rw [if_neg hpq]

/-- Two consecutive `list_moves()` calls with no intervening mutation
return equal results because every archetype `list_moves` recomputes from
the live board on every call: the result does not depend on the cache
fields at all, and the base-class cache read (which would return the
cached list on a fingerprint match) is reached by no concrete piece. -/
theorem listMoves_recomputes_independent_of_cache (s : GameState)
    (pid q : Nat) (mvs : List (Int × Int)) (h : Int) :
    listMovesDispatch (setPieceCache s q mvs h) pid =
      listMovesDispatch s pid ∧
    (∀ ps : PieceState,
      pieceListMovesBase ps.lastBoardStateHash ps = some ps.cachedMoves) := by
  constructor
  · have hqc : queryController (setPieceCache s q mvs h) = queryController s :=
      funext (queryController_setPieceCache s q mvs h)
    cases hg : getPiece s pid with
    | none =>
      have hg' : getPiece (setPieceCache s q mvs h) pid = none := by
        rw [getPiece_setPieceCache, hg]
        by_cases hpq : pid = q <;> simp [hpq]
      unfold listMovesDispatch
      rw [hg, hg']
      rfl
    | some ps =>
      by_cases hpq : pid = q
      · have hg' : getPiece (setPieceCache s q mvs h) pid =
            some { ps with cachedMoves := mvs, lastBoardStateHash := h } := by
          rw [getPiece_setPieceCache, if_pos hpq, hg]
          rfl
        unfold listMovesDispatch
        rw [hg, hg', hqc]
        rfl
      · have hg' : getPiece (setPieceCache s q mvs h) pid = some ps := by
          rw [getPiece_setPieceCache, if_neg hpq, hg]
        unfold listMovesDispatch
        rw [hg, hg', hqc]
        rfl
  · intro ps
    simp [pieceListMovesBase]

/-- The claim says every out-of-bounds coordinate — negative axes
included — reads empty.  numpy resolves a negative index inside `[-d, 0)`
by wrapping, so the off-board coordinate (-1,0) of a 2×2 board returns the
piece stored at (1,0). -/
theorem querySpace_negative_coordinate_returns_piece :
    querySpace stateC5 (-1, 0) = some 0 ∧
    onBoardB stateC5.dims (-1, 0) = false := by
  decide

/-- What `query_space` actually does: an axis outside numpy's index range
`[-d, d)` (the layout's axis 0 has size `dims.1` and is indexed by the
coordinate's second component, axis 1 size `dims.2` by the first) yields
`None` through the caught `IndexError`; in-range nonnegative axes read the
stored cell; a negative in-range axis wraps to the far side and can read a
piece.  No input raises. -/
theorem querySpace_bounds_characterization (s : GameState) (c : Int × Int) :
    (¬(-s.dims.1 ≤ c.2 ∧ c.2 < s.dims.1) ∨
      ¬(-s.dims.2 ≤ c.1 ∧ c.1 < s.dims.2) → querySpace s c = none) ∧
    (0 ≤ c.2 → c.2 < s.dims.1 → 0 ≤ c.1 → c.1 < s.dims.2 →
      querySpace s c = assocFind s.grid (c.2, c.1)) ∧
    (0 ≤ c.2 → c.2 < s.dims.1 → -s.dims.2 ≤ c.1 → c.1 < 0 →
      querySpace s c = assocFind s.grid (c.2, c.1 + s.dims.2)) ∧
    (-s.dims.1 ≤ c.2 → c.2 < 0 → 0 ≤ c.1 → c.1 < s.dims.2 →
      querySpace s c = assocFind s.grid (c.2 + s.dims.1, c.1)) := by
  refine ⟨?_, ?_, ?_, ?_⟩
  · intro hout
    unfold querySpace npAxis
    rcases hout with h | h
    · have h0 : ¬(0 ≤ c.2 ∧ c.2 < s.dims.1) := by omega
      have h1 : ¬(-s.dims.1 ≤ c.2 ∧ c.2 < 0) := by omega
      simp [h0, h1]
    · have h0 : ¬(0 ≤ c.1 ∧ c.1 < s.dims.2) := by omega
      have h1 : ¬(-s.dims.2 ≤ c.1 ∧ c.1 < 0) := by omega
      by_cases h2 : 0 ≤ c.2 ∧ c.2 < s.dims.1 <;>
        by_cases h3 : -s.dims.1 ≤ c.2 ∧ c.2 < 0 <;>
        simp [h0, h1, h2, h3]
  · intro h1 h2 h3 h4
    unfold querySpace npAxis
    simp [h1, h2, h3, h4]
  · intro h1 h2 h3 h4
    have h5 : ¬(0 ≤ c.1 ∧ c.1 < s.dims.2) := by omega
    have h6 : -s.dims.2 ≤ c.1 ∧ c.1 < 0 := ⟨h3, h4⟩
    unfold querySpace npAxis
    simp [h1, h2, h5, h6]
  · intro h1 h2 h3 h4
    have h5 : ¬(0 ≤ c.2 ∧ c.2 < s.dims.1) := by omega
    have h6 : -s.dims.1 ≤ c.2 ∧ c.2 < 0 := ⟨h1, h2⟩
    unfold querySpace npAxis
    simp [h3, h4, h5, h6]

theorem scanBoardRows_badrow (rows : List (List String)) :
    (∃ row ∈ rows, row.length ≠ 3) → ∀ acc,
      scanBoardRows rows acc = .error .invalidBoardFormat := by
  induction rows with
  | nil =>
    rintro ⟨r, hr, _⟩
    exact absurd hr (List.not_mem_nil r)
  | cons row rest ih =>
    rintro ⟨r, hr, hlen⟩ acc
    rcases List.mem_cons.mp hr with heq | hmem
    · subst heq
      match r, hlen with
      | [], _ => rfl
      | [_], _ => rfl
      | [_, _], _ => rfl
      | [_, _, _], h => exact absurd rfl h
      | _ :: _ :: _ :: _ :: _, _ => rfl
    · match row with
      | [] => rfl
      | [_] => rfl
      | [_, _] => rfl
      | [a, b, c] => exact ih ⟨r, hmem, hlen⟩ (a, b, c)
      | _ :: _ :: _ :: _ :: _ => rfl

/-- The claim says a layout field that does not parse as a nested literal
of strings fails with `InvalidBoardLayout`.  The record
`8|8|[1]` parses fine under `ast.literal_eval` (so the caught `ValueError`
never fires) and then crashes in the player-number comprehension with an
untyped `AttributeError` (`int` has no `partition`) — not
`InvalidBoardLayout`. -/
theorem get_board_nonstring_layout_not_invalidBoardLayout :
    get_board_model envC7 [["8", "8", "[1]"]] = .error .attributeError ∧
    LoadErr.attributeError ≠ LoadErr.invalidBoardLayout :=
  ⟨rfl, by decide⟩

/-- The typed failure stages of `get_board`: any row with a wrong field
count fails with `InvalidBoardFormat`; an empty layout field with
`EmptyBoard`; a row or column field `int()` rejects with
`InvalidBoardDimension`; a layout field on which `ast.literal_eval` raises
`ValueError` with `InvalidBoardLayout` — while a `SyntaxError` from
`ast.literal_eval` escapes as itself, not as `InvalidBoardLayout`.  Every
such failure is an `Except.error`, so no board (the `.ok` payload) is
returned. -/
theorem get_board_error_stages (env : PyEnv) (rows : List (List String))
    (r c l : String) :
    ((∃ row ∈ rows, row.length ≠ 3) →
      get_board_model env rows = .error .invalidBoardFormat) ∧
    (scanBoardRows rows ("", "", "") = .ok (r, c, l) → l = "" →
      get_board_model env rows = .error .emptyBoard) ∧
    (scanBoardRows rows ("", "", "") = .ok (r, c, l) → l ≠ "" →
      env.pyInt r = none →
      get_board_model env rows = .error .invalidBoardDimension) ∧
    (scanBoardRows rows ("", "", "") = .ok (r, c, l) → l ≠ "" →
      ∀ n, env.pyInt r = some n → env.pyInt c = none →
      get_board_model env rows = .error .invalidBoardDimension) ∧
    (scanBoardRows rows ("", "", "") = .ok (r, c, l) → l ≠ "" →
      ∀ n m, env.pyInt r = some n → env.pyInt c = some m →
      env.literalEval l = .valueError →
      get_board_model env rows = .error .invalidBoardLayout) ∧
    (scanBoardRows rows ("", "", "") = .ok (r, c, l) → l ≠ "" →
      ∀ n m, env.pyInt r = some n → env.pyInt c = some m →
      env.literalEval l = .syntaxError →
      get_board_model env rows = .error .syntaxError ∧
        LoadErr.syntaxError ≠ LoadErr.invalidBoardLayout) := by
  refine ⟨?_, ?_, ?_, ?_, ?_, ?_⟩
  · intro hbad
    unfold get_board_model
    rw [scanBoardRows_badrow rows hbad ("", "", "")]
  · intro hscan hl
    unfold get_board_model
    rw [hscan]
    simp [hl]
  · intro hscan hl hr
    unfold get_board_model
    rw [hscan]
    simp [hl, hr]
  · intro hscan hl n hrn hc
    unfold get_board_model
    rw [hscan]
    simp [hl, hrn, hc]
  · intro hscan hl n m hrn hcm hlit
    unfold get_board_model
    rw [hscan]
    simp [hl, hrn, hcm, hlit]
  · intro hscan hl n m hrn hcm hlit
    refine ⟨?_, by decide⟩
    unfold get_board_model
    rw [hscan]
    simp [hl, hrn, hcm, hlit]

theorem get_board_error_stages_witness :
    get_board_model envC7W [["x", "y"]] = .error .invalidBoardFormat ∧
    get_board_model envC7W [["4", "4", ""]] = .error .emptyBoard ∧
    get_board_model envC7W [["z", "4", "VE"]] = .error .invalidBoardDimension ∧
    get_board_model envC7W [["4", "z", "VE"]] = .error .invalidBoardDimension ∧
    get_board_model envC7W [["4", "4", "VE"]] = .error .invalidBoardLayout ∧
    (get_board_model envC7W [["4", "4", "SE"]] = .error .syntaxError ∧
      LoadErr.syntaxError ≠ LoadErr.invalidBoardLayout) :=
  ⟨(get_board_error_stages envC7W [["x", "y"]] "" "" "").1
      ⟨["x", "y"], by simp, by decide⟩,
   (get_board_error_stages envC7W [["4", "4", ""]] "4" "4" "").2.1
      (by rfl) (by rfl),
   (get_board_error_stages envC7W [["z", "4", "VE"]] "z" "4" "VE").2.2.1
      (by rfl) (by decide) (by rfl),
   (get_board_error_stages envC7W [["4", "z", "VE"]] "4" "z" "VE").2.2.2.1
      (by rfl) (by decide) 4 (by rfl) (by rfl),
   (get_board_error_stages envC7W [["4", "4", "VE"]] "4" "4" "VE").2.2.2.2.1
      (by rfl) (by decide) 4 4 (by rfl) (by rfl) (by rfl),
   (get_board_error_stages envC7W [["4", "4", "SE"]] "4" "4" "SE").2.2.2.2.2
      (by rfl) (by decide) 4 4 (by rfl) (by rfl) (by rfl)⟩

/-- When no directory entry passes the candidate filter, the loop records
nothing. -/
theorem buildPieceMap_no_candidates (resolve : String → Option Unit)
    (entries : List DirEntry) (acc : List String)
    (hnone : entries.filter pieceCandidate = []) :
    buildPieceMap resolve entries acc = .ok acc := by
  induction entries generalizing acc with
  | nil => rfl
  | cons e rest ih =>
    rw [List.filter_cons] at hnone
    by_cases hc : pieceCandidate e
    · rw [if_pos hc] at hnone
      exact absurd hnone (List.cons_ne_nil e (rest.filter pieceCandidate))
    · rw [if_neg hc] at hnone
      unfold buildPieceMap
      rw [if_neg hc]
      exact ih acc hnone

/-- `get_piece_map` raises `PiecesNotFound` when the pieces directory is
absent, and `PiecesEmpty` when the directory exists but its enumeration
resolves zero archetype modules (no candidate `.py` file at all). -/
theorem get_piece_map_not_found_and_empty (entries : List DirEntry)
    (resolve : String → Option Unit) :
    get_piece_map_model false entries resolve = .error .piecesNotFound ∧
    (entries.filter pieceCandidate = [] →
      get_piece_map_model true entries resolve = .error .piecesEmpty) := by
  constructor
  · rfl
  · intro hnone
    unfold get_piece_map_model
    rw [buildPieceMap_no_candidates resolve entries [] hnone]
    rfl

theorem get_piece_map_not_found_and_empty_witness :
    get_piece_map_model false
      [⟨"rook.py", true⟩] (fun _ => some ()) = .error .piecesNotFound ∧
    get_piece_map_model true
      [⟨"readme.txt", true⟩, ⟨"subdir.py", false⟩, ⟨"__init__.py", true⟩]
      (fun _ => some ()) = .error .piecesEmpty :=
  ⟨(get_piece_map_not_found_and_empty [⟨"rook.py", true⟩]
      (fun _ => some ())).1,
   (get_piece_map_not_found_and_empty
      [⟨"readme.txt", true⟩, ⟨"subdir.py", false⟩, ⟨"__init__.py", true⟩]
      (fun _ => some ())).2 (by decide)⟩

theorem querySpace_bounds_characterization_witness :
    querySpace stateC5 (0, 5) = none ∧
    querySpace stateC5 (1, 0) = assocFind stateC5.grid (0, 1) ∧
    querySpace stateC5 (-1, 0) = assocFind stateC5.grid (0, 1) ∧
    querySpace stateC5 (0, -1) = assocFind stateC5.grid (1, 0) :=
  ⟨(querySpace_bounds_characterization stateC5 (0, 5)).1 (Or.inl (by decide)),
   (querySpace_bounds_characterization stateC5 (1, 0)).2.1
     (by decide) (by decide) (by decide) (by decide),
   (querySpace_bounds_characterization stateC5 (-1, 0)).2.2.1
     (by decide) (by decide) (by decide) (by decide),
   (querySpace_bounds_characterization stateC5 (0, -1)).2.2.2
     (by decide) (by decide) (by decide) (by decide)⟩

theorem threatStep_eq (s : GameState) (n : Int) (pid : Nat) :
    threatStep s n pid =
      (threatContribSpec s n pid).map
        (fun c => (c, c.any (kingThreatB s n))) := by
  unfold threatStep threatContribSpec
  cases getPiece s pid with
  | none => rfl
  | some ps =>
    cases listMovesDispatch s pid with
    | none => rfl
    | some moves =>
      dsimp only
      by_cases hp : ps.pieceChar = 'P' ∧ moves ≠ []
      · rw [if_pos hp, if_pos hp]
        match moves, hp.2 with
        | base :: _, _ =>
          by_cases hl : onBoardB s.dims (base.1 - 1, base.2) <;>
            by_cases hr : onBoardB s.dims (base.1 + 1, base.2) <;>
            simp [hl, hr]
      · rw [if_neg hp, if_neg hp]
        rfl

theorem threatFold_eq (s : GameState) (n : Int) (pids : List Nat) :
    threatFold s n pids =
      (threatUnion s n pids).map
        (fun L => (L, L.any (kingThreatB s n))) := by
  induction pids with
  | nil => rfl
  | cons pid rest ih =>
    unfold threatFold threatUnion
    rw [threatStep_eq, ih]
    cases threatContribSpec s n pid with
    | none => rfl
    | some cl =>
      cases threatUnion s n rest with
      | none => rfl
      | some cs => simp [List.any_append]

theorem getPlayer_setPlayerState (s : GameState) (m : Int)
    (f : PlayerState → PlayerState) (k : Int) :
    getPlayer (setPlayerState s m f) k =
      if k = m then (getPlayer s k).map f else getPlayer s k := by
  have h1 := assocFind_mapUpdate s.players m f k
  simpa [getPlayer, setPlayerState] using h1

/-- The claim says a pawn contributes exactly its two diagonal-forward
capture squares and that `in_check` is set when the union covers the
opposing king's coordinate.  With the forward-one square blocked, the
pawn's first listed move is the forward-two square (1,3), so the code
derives the "capture" squares (0,3) and (2,3) from it: the opposing king
standing on the true diagonal capture square (2,2) is missed and player 2
is left out of check. -/
theorem threatened_spaces_miss_pawn_diagonal_check :
    ((updateThreatenedSpaces stateC9 1).map
      (fun s' => (getPlayer s' 1).map (fun p => p.threatenedSpaces)) =
      some (some [(0, 3), (2, 3)])) ∧
    ((updateThreatenedSpaces stateC9 1).map
      (fun s' => (getPlayer s' 2).map (fun p => p.inCheck)) =
      some (some false)) ∧
    (querySpace stateC9 (2, 2) = some 2) ∧
    ((getPiece stateC9 2).map (fun p => p.pieceChar) = some 'K') ∧
    ((getPiece stateC9 2).map (fun p => p.playerController) = some 2) ∧
    (cadd (cadd (1, 1) (pawnDirection 1)) (1, 0) = (2, 2)) ∧
    ((2, 2) ∉ ([(0, 3), (2, 3)] : List (Int × Int))) := by
  decide

/-- What `update_threatened_spaces` establishes: the player's threatened
spaces become the concatenation over owned pieces of their contributions
(pawns with moves contribute the on-board horizontal neighbours of their
first listed move, everything else its whole move list), and the opposing
player's `in_check` is set exactly when some contributed space holds an
opposing piece with the King glyph; without such a space only the
threatened-space list changes. -/
theorem updateThreatenedSpaces_characterization (s : GameState) (n : Int)
    (pl : PlayerState) (L : List (Int × Int))
    (hpl : getPlayer s n = some pl) (hne : pl.pieces ≠ [])
    (hL : threatUnion s n pl.pieces = some L)
    (hopp : L.any (kingThreatB s n) = true →
      (getPlayer s (n % 2 + 1)).isSome = true) :
    ∃ s', updateThreatenedSpaces s n = some s' ∧
      (getPlayer s' n).map (fun p => p.threatenedSpaces) = some L ∧
      (L.any (kingThreatB s n) = true →
        (getPlayer s' (n % 2 + 1)).map (fun p => p.inCheck) = some true) ∧
      (L.any (kingThreatB s n) = false →
        s' = setPlayerState s n
          (fun p => { p with threatenedSpaces := L })) := by
  have hfold : threatFold s n pl.pieces =
      some (L, L.any (kingThreatB s n)) := by
    rw [threatFold_eq, hL]
    rfl
  cases hany : L.any (kingThreatB s n) with
  | false =>
    rw [hany] at hfold
    refine ⟨setPlayerState s n (fun p => { p with threatenedSpaces := L }),
      ?_, ?_, ?_, ?_⟩
    · unfold updateThreatenedSpaces
      rw [hpl]
      dsimp only
      cases hps : pl.pieces with
      | nil => exact absurd hps hne
      | cons p0 prest =>
        rw [hps] at hfold
        dsimp only
        rw [hfold]
        rfl
    · rw [getPlayer_setPlayerState, if_pos rfl, hpl]
      rfl
    · intro htrue
      exact absurd htrue (by decide)
    · intro _
      rfl
  | true =>
    rw [hany] at hfold
    have hsome := hopp hany
    cases hgo : getPlayer s (n % 2 + 1) with
    | none => rw [hgo] at hsome; exact absurd hsome (by decide)
    | some po =>
      refine ⟨setPlayerState
          (setPlayerState s (n % 2 + 1) (fun p => { p with inCheck := true }))
          n (fun p => { p with threatenedSpaces := L }), ?_, ?_, ?_, ?_⟩
      · unfold updateThreatenedSpaces
        rw [hpl]
        dsimp only
        cases hps : pl.pieces with
        | nil => exact absurd hps hne
        | cons p0 prest =>
          rw [hps] at hfold
          dsimp only
          rw [hfold, hgo]
          rfl
      · rw [getPlayer_setPlayerState, if_pos rfl,
          getPlayer_setPlayerState]
        by_cases hno : n = n % 2 + 1
        · rw [if_pos hno, hpl]
          rfl
        · rw [if_neg hno, hpl]
          rfl
      · intro _
        rw [getPlayer_setPlayerState]
        by_cases hno : n % 2 + 1 = n
        · rw [if_pos hno, getPlayer_setPlayerState, if_pos rfl, hno, hpl]
          rfl
        · rw [if_neg hno, getPlayer_setPlayerState, if_pos rfl, hgo]
          rfl
      · intro hfalse
        exact absurd hfalse (by decide)

theorem updateThreatenedSpaces_characterization_witness :
    ∃ s', updateThreatenedSpaces stateC9 1 = some s' ∧
      (getPlayer s' 1).map (fun p => p.threatenedSpaces) =
        some [(0, 3), (2, 3)] ∧
      (([(0, 3), (2, 3)] : List (Int × Int)).any (kingThreatB stateC9 1) =
          true →
        (getPlayer s' (1 % 2 + 1)).map (fun p => p.inCheck) = some true) ∧
      (([(0, 3), (2, 3)] : List (Int × Int)).any (kingThreatB stateC9 1) =
          false →
        s' = setPlayerState stateC9 1
          (fun p => { p with threatenedSpaces := [(0, 3), (2, 3)] })) :=
  updateThreatenedSpaces_characterization stateC9 1 (mkPlayer [0])
    [(0, 3), (2, 3)] (by decide) (by decide) (by decide)
    (fun _ => by decide)

/-! ## C10: move/capture and player membership -/

theorem pieceStructEq_refl (ps : PieceState) : pieceStructEq ps ps = true := by
  simp [pieceStructEq]

theorem assocFind_gridClear_self (g : List ((Int × Int) × Nat))
    (i : Int × Int) : assocFind (gridClear g i) i = none := by
  induction g with
  | nil => rfl
  | cons e rest ih =>
    unfold gridClear
    by_cases hei : e.1 = i
    · rw [if_pos hei]
      exact ih
    · rw [if_neg hei]
      unfold assocFind
      rw [if_neg hei]
      exact ih

theorem assocFind_gridClear_ne (g : List ((Int × Int) × Nat))
    (i j : Int × Int) (hne : j ≠ i) :
    assocFind (gridClear g i) j = assocFind g j := by
  induction g with
  | nil => rfl
  | cons e rest ih =>
    unfold gridClear
    by_cases hei : e.1 = i
    · rw [if_pos hei, ih]
      have hej : ¬e.1 = j := fun hx => hne (hx.symm.trans hei)
      conv_rhs => unfold assocFind
      rw [if_neg hej]
    · rw [if_neg hei]
      unfold assocFind
      by_cases hej : e.1 = j
      · rw [if_pos hej, if_pos hej]
      · rw [if_neg hej, if_neg hej]
        exact ih

theorem getPiece_setPieceState (s : GameState) (b : Nat)
    (f : PieceState → PieceState) (a : Nat) :
    getPiece (setPieceState s b f) a =
      if a = b then (getPiece s a).map f else getPiece s a := by
  have h1 := assocFind_mapUpdate s.pieces b f a
  simpa [getPiece, setPieceState] using h1

theorem mem_gridClear {g : List ((Int × Int) × Nat)} {i : Int × Int}
    {e : (Int × Int) × Nat} (h : e ∈ gridClear g i) : e ∈ g ∧ e.1 ≠ i := by
  induction g with
  | nil => cases h
  | cons e0 rest ih =>
    unfold gridClear at h
    by_cases he0 : e0.1 = i
    · rw [if_pos he0] at h
      obtain ⟨h1, h2⟩ := ih h
      exact ⟨List.mem_cons_of_mem e0 h1, h2⟩
    · rw [if_neg he0] at h
      rcases List.mem_cons.mp h with heq | hmem
      · subst heq
        exact ⟨List.mem_cons_self e rest, he0⟩
      · obtain ⟨h1, h2⟩ := ih hmem
        exact ⟨List.mem_cons_of_mem e0 h1, h2⟩

theorem omcRemovePiece_players (s : GameState) (p : Nat)
    (r : GameState × Bool) (h : omcRemovePiece s p = some r) :
    r.1.players = s.players := by
  unfold omcRemovePiece at h
  cases hg : getPiece s p with
  | none => rw [hg] at h; exact Option.noConfusion h
  | some ps =>
    rw [hg] at h
    dsimp only at h
    cases hc : ps.currentCoords with
    | none => rw [hc] at h; exact Option.noConfusion h
    | some c =>
      rw [hc] at h
      dsimp only at h
      cases hq : querySpace s c with
      | none => rw [hq] at h; dsimp only at h; cases h; rfl
      | some oid =>
        rw [hq] at h
        dsimp only at h
        cases hgo : getPiece s oid with
        | none => rw [hgo] at h; exact Option.noConfusion h
        | some os =>
          rw [hgo] at h
          dsimp only at h
          by_cases hse : pieceStructEq os ps
          · rw [if_pos hse] at h
            cases h0 : npAxis s.dims.1 c.2 with
            | none => rw [h0] at h; exact Option.noConfusion h
            | some i0 =>
              rw [h0] at h
              cases h1 : npAxis s.dims.2 c.1 with
              | none => rw [h1] at h; exact Option.noConfusion h
              | some i1 => rw [h1] at h; dsimp only at h; cases h; rfl
          · rw [if_neg hse] at h; cases h; rfl

theorem omcAddPiece_players (s : GameState) (p : Nat)
    (r : GameState × Bool) (h : omcAddPiece s p = some r) :
    r.1.players = s.players := by
  unfold omcAddPiece at h
  cases hg : getPiece s p with
  | none => rw [hg] at h; exact Option.noConfusion h
  | some ps =>
    rw [hg] at h
    dsimp only at h
    cases hc : ps.currentCoords with
    | none => rw [hc] at h; exact Option.noConfusion h
    | some c =>
      rw [hc] at h
      dsimp only at h
      cases hq : querySpace s c with
      | some oid => rw [hq] at h; dsimp only at h; cases h; rfl
      | none =>
        rw [hq] at h
        dsimp only at h
        cases h0 : npAxis s.dims.1 c.2 with
        | none => rw [h0] at h; exact Option.noConfusion h
        | some i0 =>
          rw [h0] at h
          cases h1 : npAxis s.dims.2 c.1 with
          | none => rw [h1] at h; exact Option.noConfusion h
          | some i1 => rw [h1] at h; dsimp only at h; cases h; rfl

theorem omcPieceMove_players (s : GameState) (p : Nat) (t : Int × Int)
    (r : GameState × Bool) (h : omcPieceMove s p t = some r) :
    r.1.players = s.players := by
  unfold omcPieceMove at h
  cases hm : listMovesDispatch s p with
  | none => rw [hm] at h; exact Option.noConfusion h
  | some moves =>
    rw [hm] at h
    dsimp only at h
    by_cases hin : t ∈ moves
    · rw [if_pos hin] at h
      cases h1 : omcRemovePiece s p with
      | none => rw [h1] at h; exact Option.noConfusion h
      | some r1 =>
        rw [h1] at h
        dsimp only at h
        obtain ⟨s1, b1⟩ := r1
        dsimp only at h
        have e1 : s1.players = s.players :=
          omcRemovePiece_players s p (s1, b1) h1
        cases hq : querySpace (setPieceCoords s1 p (some t)) t with
        | none =>
          rw [hq] at h
          dsimp only at h
          cases h4 : omcAddPiece (setPieceCoords s1 p (some t)) p with
          | none => rw [h4] at h; exact Option.noConfusion h
          | some r4 =>
            rw [h4] at h
            dsimp only at h
            obtain ⟨s4, b4⟩ := r4
            dsimp only at h
            cases h
            exact (omcAddPiece_players _ _ _ h4).trans e1
        | some qq =>
          rw [hq] at h
          dsimp only at h
          cases h3 : omcRemovePiece (setPieceCoords s1 p (some t)) qq with
          | none => rw [h3] at h; exact Option.noConfusion h
          | some r3 =>
            rw [h3] at h
            dsimp only at h
            obtain ⟨s3, b3⟩ := r3
            dsimp only at h
            cases h4 : omcAddPiece s3 p with
            | none => rw [h4] at h; exact Option.noConfusion h
            | some r4 =>
              rw [h4] at h
              dsimp only at h
              obtain ⟨s4, b4⟩ := r4
              dsimp only at h
              cases h
              exact (omcAddPiece_players _ _ _ h4).trans
                ((omcRemovePiece_players _ _ _ h3).trans e1)
    · rw [if_neg hin] at h; cases h; rfl

/-- A successful capturing `Piece.move` of the omc model removes the
captured piece from the occupancy grid and gives it the sentinel
coordinates, while no `Piece.move` or `Board.remove_piece` call ever
touches any Player's piece list — in particular the captured piece stays a
member of its former owner's collection (`players`, which holds those
lists, is preserved verbatim). -/
theorem omc_move_preserves_player_membership_and_detaches_captured
    (s : GameState) (pid q : Nat) (ps qs : PieceState) (c t : Int × Int)
    (M : List (Int × Int))
    (hM : listMovesDispatch s pid = some M) (ht : t ∈ M)
    (hp : getPiece s pid = some ps) (hpc : ps.currentCoords = some c)
    (hq : getPiece s q = some qs) (hqc : qs.currentCoords = some t)
    (hne : q ≠ pid) (hct : c ≠ t)
    (hcIn0 : npAxis s.dims.1 c.2 = some c.2)
    (hcIn1 : npAxis s.dims.2 c.1 = some c.1)
    (htIn0 : npAxis s.dims.1 t.2 = some t.2)
    (htIn1 : npAxis s.dims.2 t.1 = some t.1)
    (hgc : assocFind s.grid (c.2, c.1) = some pid)
    (hgt : assocFind s.grid (t.2, t.1) = some q)
    (huniq : ∀ e ∈ s.grid, e.2 = q → e.1 = (t.2, t.1)) :
    (∃ s', omcPieceMove s pid t = some (s', true) ∧
      s'.players = s.players ∧
      (getPiece s' q).map (fun x => x.currentCoords) = some none ∧
      (∀ e ∈ s'.grid, e.2 ≠ q) ∧
      assocFind s'.grid (t.2, t.1) = some pid) ∧
    (∀ (s₀ : GameState) (p₀ : Nat) (t₀ : Int × Int) (r : GameState × Bool),
      omcPieceMove s₀ p₀ t₀ = some r → r.1.players = s₀.players) ∧
    (∀ (s₀ : GameState) (p₀ : Nat) (r : GameState × Bool),
      omcRemovePiece s₀ p₀ = some r → r.1.players = s₀.players) := by
  refine ⟨?_, fun s₀ p₀ t₀ r h => omcPieceMove_players s₀ p₀ t₀ r h,
    fun s₀ p₀ r h => omcRemovePiece_players s₀ p₀ r h⟩
  obtain ⟨c1, c2⟩ := c
  obtain ⟨t1, t2⟩ := t
  have hidx : ((t2, t1) : Int × Int) ≠ (c2, c1) := by
    intro hx
    apply hct
    rw [Prod.mk.injEq] at hx
    rw [Prod.mk.injEq]
    exact ⟨hx.2.symm, hx.1.symm⟩
  have hnp : ¬pid = q := fun hx => hne hx.symm
  have hqsc : querySpace s (c1, c2) = some pid := by
    unfold querySpace
    rw [hcIn0]
    dsimp only
    rw [hcIn1]
    dsimp only
    exact hgc
  have hremA : omcRemovePiece s pid = some (removedState s pid (c1, c2), true) := by
    unfold omcRemovePiece
    rw [hp]
    dsimp only
    rw [hpc]
    dsimp only
    rw [hqsc]
    dsimp only
    rw [hp]
    dsimp only
    rw [if_pos (pieceStructEq_refl ps), hcIn0, hcIn1]
    dsimp only
    rfl
  have hq2 : querySpace (setPieceCoords (removedState s pid (c1, c2)) pid
      (some (t1, t2))) (t1, t2) = some q := by
    show (match npAxis s.dims.1 t2 with
      | none => none
      | some i0 =>
        match npAxis s.dims.2 t1 with
        | none => none
        | some i1 => assocFind (gridClear s.grid (c2, c1)) (i0, i1)) = some q
    rw [htIn0]
    dsimp only
    rw [htIn1]
    dsimp only
    rw [assocFind_gridClear_ne s.grid (c2, c1) (t2, t1) hidx]
    exact hgt
  have e1 : getPiece (removedState s pid (c1, c2)) q = getPiece s q := by
    have h2 := getPiece_setPieceState
      { s with grid := gridClear s.grid (c2, c1) } pid
      (fun x => { x with currentCoords := none }) q
    rw [if_neg hne] at h2
    exact h2
  have hq2get : getPiece (setPieceCoords (removedState s pid (c1, c2)) pid
      (some (t1, t2))) q = some qs := by
    have h3 := getPiece_setPieceState (removedState s pid (c1, c2)) pid
      (fun x => { x with currentCoords := some (t1, t2) }) q
    rw [if_neg hne] at h3
    exact h3.trans (e1.trans hq)
  have hremB : omcRemovePiece (setPieceCoords (removedState s pid (c1, c2))
      pid (some (t1, t2))) q =
      some (removedState (setPieceCoords (removedState s pid (c1, c2)) pid
        (some (t1, t2))) q (t1, t2), true) := by
    unfold omcRemovePiece
    rw [hq2get]
    dsimp only
    rw [hqc]
    dsimp only
    rw [hq2]
    dsimp only
    rw [hq2get]
    dsimp only
    rw [if_pos (pieceStructEq_refl qs)]
    rw [show npAxis (setPieceCoords (removedState s pid (c1, c2)) pid
      (some (t1, t2))).dims.1 t2 = some t2 from htIn0]
    rw [show npAxis (setPieceCoords (removedState s pid (c1, c2)) pid
      (some (t1, t2))).dims.2 t1 = some t1 from htIn1]
    dsimp only
    rfl
  have hApid : getPiece (removedState s pid (c1, c2)) pid =
      some { ps with currentCoords := none } := by
    have h4 := getPiece_setPieceState
      { s with grid := gridClear s.grid (c2, c1) } pid
      (fun x => { x with currentCoords := none }) pid
    rw [if_pos rfl] at h4
    rw [show getPiece { s with grid := gridClear s.grid (c2, c1) } pid =
      some ps from hp] at h4
    exact h4
  have hs2pid : getPiece (setPieceCoords (removedState s pid (c1, c2)) pid
      (some (t1, t2))) pid = some { ps with currentCoords := some (t1, t2) } := by
    have h5 := getPiece_setPieceState (removedState s pid (c1, c2)) pid
      (fun x => { x with currentCoords := some (t1, t2) }) pid
    rw [if_pos rfl, hApid] at h5
    exact h5
  have hBpid : getPiece (removedState (setPieceCoords
      (removedState s pid (c1, c2)) pid (some (t1, t2))) q (t1, t2)) pid =
      some { ps with currentCoords := some (t1, t2) } := by
    have h6 := getPiece_setPieceState
      { (setPieceCoords (removedState s pid (c1, c2)) pid (some (t1, t2)))
        with grid := gridClear (setPieceCoords (removedState s pid (c1, c2))
          pid (some (t1, t2))).grid (t2, t1) } q
      (fun x => { x with currentCoords := none }) pid
    rw [if_neg hnp] at h6
    exact h6.trans hs2pid
  have hqB : querySpace (removedState (setPieceCoords
      (removedState s pid (c1, c2)) pid (some (t1, t2))) q (t1, t2))
      (t1, t2) = none := by
    show (match npAxis s.dims.1 t2 with
      | none => none
      | some i0 =>
        match npAxis s.dims.2 t1 with
        | none => none
        | some i1 =>
          assocFind (gridClear (gridClear s.grid (c2, c1)) (t2, t1))
            (i0, i1)) = none
    rw [htIn0]
    dsimp only
    rw [htIn1]
    dsimp only
    exact assocFind_gridClear_self (gridClear s.grid (c2, c1)) (t2, t1)
  have haddC : omcAddPiece (removedState (setPieceCoords
      (removedState s pid (c1, c2)) pid (some (t1, t2))) q (t1, t2)) pid =
      some (addedState (removedState (setPieceCoords
        (removedState s pid (c1, c2)) pid (some (t1, t2))) q (t1, t2)) pid
        (t1, t2), true) := by
    unfold omcAddPiece
    rw [hBpid]
    dsimp only
    rw [hqB]
    dsimp only
    rw [show npAxis (removedState (setPieceCoords
      (removedState s pid (c1, c2)) pid (some (t1, t2))) q (t1, t2)).dims.1
      t2 = some t2 from htIn0]
    rw [show npAxis (removedState (setPieceCoords
      (removedState s pid (c1, c2)) pid (some (t1, t2))) q (t1, t2)).dims.2
      t1 = some t1 from htIn1]
    dsimp only
    rfl
  refine ⟨addedState (removedState (setPieceCoords
    (removedState s pid (c1, c2)) pid (some (t1, t2))) q (t1, t2)) pid
    (t1, t2), ?_, rfl, ?_, ?_, ?_⟩
  · unfold omcPieceMove
    rw [hM]
    dsimp only
    rw [if_pos ht, hremA]
    dsimp only
    rw [hq2]
    dsimp only
    rw [hremB]
    dsimp only
    rw [haddC]
  · have h7 := getPiece_setPieceState
      { (setPieceCoords (removedState s pid (c1, c2)) pid (some (t1, t2)))
        with grid := gridClear (setPieceCoords (removedState s pid (c1, c2))
          pid (some (t1, t2))).grid (t2, t1) } q
      (fun x => { x with currentCoords := none }) q
    rw [if_pos rfl] at h7
    rw [show getPiece { (setPieceCoords (removedState s pid (c1, c2)) pid
      (some (t1, t2))) with grid := gridClear (setPieceCoords
        (removedState s pid (c1, c2)) pid (some (t1, t2))).grid (t2, t1) } q
      = some qs from hq2get] at h7
    have h8 : getPiece (addedState (removedState (setPieceCoords
        (removedState s pid (c1, c2)) pid (some (t1, t2))) q (t1, t2)) pid
        (t1, t2)) q = some { qs with currentCoords := none } := h7
    rw [h8]
    rfl
  · intro e he
    have he' : e ∈ ((t2, t1), pid) ::
        gridClear (gridClear (gridClear s.grid (c2, c1)) (t2, t1)) (t2, t1) :=
      he
    rcases List.mem_cons.mp he' with heq | hmem
    · subst heq
      exact fun hx => hne hx.symm
    · obtain ⟨hm1, hne1⟩ := mem_gridClear hmem
      obtain ⟨hm2, _⟩ := mem_gridClear hm1
      obtain ⟨hm3, _⟩ := mem_gridClear hm2
      intro hx
      exact hne1 (huniq e hm3 hx)
  · show assocFind (((t2, t1), pid) ::
      gridClear (gridClear (gridClear s.grid (c2, c1)) (t2, t1)) (t2, t1))
      (t2, t1) = some pid
    unfold assocFind
    rw [if_pos rfl]

theorem omc_move_membership_witness :
    (∃ s', omcPieceMove stateC10 0 (0, 2) = some (s', true) ∧
      s'.players = stateC10.players ∧
      (getPiece s' 1).map (fun x => x.currentCoords) = some none ∧
      (∀ e ∈ s'.grid, e.2 ≠ 1) ∧
      assocFind s'.grid (2, 0) = some 0) ∧
    (∀ (s₀ : GameState) (p₀ : Nat) (t₀ : Int × Int) (r : GameState × Bool),
      omcPieceMove s₀ p₀ t₀ = some r → r.1.players = s₀.players) ∧
    (∀ (s₀ : GameState) (p₀ : Nat) (r : GameState × Bool),
      omcRemovePiece s₀ p₀ = some r → r.1.players = s₀.players) :=
  omc_move_preserves_player_membership_and_detaches_captured stateC10 0 1
    (mkPiece 'R' 1 (0, 0) .rook) (mkPiece 'P' 2 (0, 2) .pawn) (0, 0) (0, 2)
    [(1, 0), (2, 0), (0, 1), (0, 2)]
    (by decide) (by decide) (by decide) (by decide) (by decide) (by decide)
    (by decide) (by decide) (by decide) (by decide) (by decide) (by decide)
    (by decide) (by decide) (by decide)
